import Mathlib

/-!
A shallow embedding of the `port-monitor` repository (Go): the snapshot
collector (`scanner.ScanProcesses`, `scanner.KillProcess`) and the
interactive session (`main.go`: `initialModel`, `Update`, `updateTable`,
`killPending`, `toggleSelection`, `startKillProcess`, `formatBytes`).

Modelling conventions:
* Go strings are Lean `String`s (a structure over `List Char`).  All strings
  relevant to the theorems (process names, port digit strings, status words)
  are ASCII, where Go's byte-wise `len`/slicing/ordering coincide with the
  character-wise operations used here.  `strings.ToLower` is modelled by
  `Char.toLower` (ASCII case folding), which agrees with Go on ASCII input.
* Machine integers (`int32` pids, `uint32` ports, `uint64` sizes) are `Int`
  and `Nat`; no operation in the modelled code can overflow them.
* `CPUPercent` (`float64`) is modelled at integer granularity (`Int`); no
  claim concerns CPU values, and the only uses are an order comparison and a
  display cell.
* Fallible OS reads are inputs: a `RawProc` carries the result of each
  per-process read as an `Option`, and `scanProcesses` takes the results of
  `user.Current`, `process.Processes` and `net.Connections` as `Except`
  values.  `scanner.KillProcess` is an oracle `Int → Option String`
  (`none` = success, `some e` = the error).
* Go's `sort.Slice` is modelled by an insertion sort with the same
  comparator.  For comparators that order the list elements strictly — the
  only situations the theorems below rely on — every sort satisfying
  `sort.Slice`'s contract produces this unique permutation.
* Go string slicing `s[:k]` panics for `k < 0`; the panic is modelled by
  `Option` (`none` = runtime panic).
-/

namespace PortMonitor

/-! ### Go string primitives -/

/-- Model of Go `strings.HasPrefix pre hay` (argument order: needle first). -/
def leadsWith : List Char → List Char → Bool
  | [], _ => true
  | _ :: _, [] => false
  | c :: cs, d :: ds => (c == d) && leadsWith cs ds

/-- Model of Go `strings.Contains hay needle`. -/
def containsSub : List Char → List Char → Bool
  | [], needle => leadsWith needle []
  | c :: t, needle => leadsWith needle (c :: t) || containsSub t needle

/-- Go `strings.Contains` on `String`s. -/
def strContains (hay needle : String) : Bool :=
  containsSub hay.data needle.data

/-- Go `strings.HasPrefix` on `String`s. -/
def strHasPre (s pre : String) : Bool :=
  leadsWith pre.data s.data

/-- Go `strings.HasSuffix` on `String`s. -/
def strHasSuf (s suf : String) : Bool :=
  leadsWith suf.data.reverse s.data.reverse

/-- Model of Go `strings.ToLower` (ASCII case folding). -/
def lowerStr (s : String) : String :=
  ⟨s.data.map Char.toLower⟩

/-- The decimal digit characters, for rendering `fmt.Sprintf("%d", _)`. -/
def digitChar : Nat → Char
  | 0 => '0' | 1 => '1' | 2 => '2' | 3 => '3' | 4 => '4'
  | 5 => '5' | 6 => '6' | 7 => '7' | 8 => '8' | _ => '9'

/-- Decimal rendering of a `Nat`, accumulator style, with structural fuel
(`n` itself suffices: the value shrinks by a factor of ten per step). -/
def natDecCore : Nat → Nat → List Char → List Char
  | 0, n, acc => digitChar n :: acc
  | fuel + 1, n, acc =>
    if n < 10 then digitChar n :: acc
    else natDecCore fuel (n / 10) (digitChar (n % 10) :: acc)

/-- Decimal rendering of a `Nat`. -/
def natDecGo (n : Nat) (acc : List Char) : List Char :=
  natDecCore n n acc

/-- Go `fmt.Sprintf("%d", n)` for an unsigned integer. -/
def natDecStr (n : Nat) : String :=
  ⟨natDecGo n []⟩

/-- Go `fmt.Sprintf("%d", i)` for a signed integer. -/
def intDecStr (i : Int) : String :=
  if i < 0 then ⟨'-' :: natDecGo (-i).toNat []⟩ else ⟨natDecGo i.toNat []⟩

/-- Model of `fmt.Sscanf(s, "%d", &pid)` with the error ignored: the leading
decimal number of `s`, `0` when `s` does not start with a digit (the Go
variable keeps its zero value). -/
def parseDigitsAcc : List Char → Nat → Nat
  | [], acc => acc
  | c :: t, acc => if c.isDigit then parseDigitsAcc t (acc * 10 + (c.toNat - 48)) else acc

/-- Leading signed decimal number of a string, `0` on parse failure. -/
def sscanfInt (s : String) : Int :=
  match s.data with
  | '-' :: rest => -(parseDigitsAcc rest 0 : Int)
  | l => (parseDigitsAcc l 0 : Int)

/-! ### Scanner data model (`part_000`, package `scanner`) -/

/-- `scanner.ProcessType`. -/
inductive ProcessType where
  | SystemProcess
  | UserProcess
deriving DecidableEq, Repr

/-- `scanner.Connection`: one network connection of a process. -/
structure Connection where
  port : Nat
  status : String
deriving DecidableEq, Repr

/-- `scanner.ProcessInfo`: one process record of a snapshot. -/
structure ProcessInfo where
  pid : Int
  name : String
  user : String
  ptype : ProcessType
  connections : List Connection
  cwd : String
  command : String
  appType : String
  cpuPercent : Int
  memoryUsage : Nat
deriving DecidableEq, Repr

/-- Per-process OS reads, each an `Option` (`none` = the read failed). -/
structure RawProc where
  pid : Int
  nameRes : Option String
  usernameRes : Option String
  cwdRes : Option String
  cmdlineRes : Option String
  cpuRes : Option Int
  memRes : Option Nat
deriving Repr

/-- One entry of `net.Connections("inet")`. -/
structure RawConn where
  pid : Int
  laddrPort : Nat
  status : String
deriving Repr

/-- Drop trailing `/` characters (part of `filepath.Base`). -/
def dropTrailSlash (l : List Char) : List Char :=
  (l.reverse.dropWhile (· == '/')).reverse

/-- The component after the last `/` (part of `filepath.Base`). -/
def afterLastSlash (l : List Char) : List Char :=
  (l.reverse.takeWhile (fun c => !(c == '/'))).reverse

/-- Model of Go `filepath.Base` on Unix paths. -/
def filepathBase (s : String) : String :=
  if s.data = [] then "."
  else
    let t := dropTrailSlash s.data
    if t = [] then "/" else ⟨afterLastSlash t⟩

/-- The `appType` heuristic of `ScanProcesses` (the `"Unknown"` initial value
is always overwritten by the `else` branch). -/
def appTypeOf (name cwd cmdline : String) : String :=
  if strHasPre cwd "/Applications" || strHasSuf name ".app" then "GUI App"
  else if strContains cmdline " go run " || strHasPre (filepathBase cwd) "apps" then "Dev Tool"
  else "Binary"

/-- The pid → connections mapping built from `net.Connections` output
(append order is enumeration order, as with the Go map of slices). -/
def connsFor (conns : List RawConn) (pid : Int) : List Connection :=
  conns.filterMap fun c => if c.pid = pid then some ⟨c.laddrPort, c.status⟩ else none

/-- The per-process body of the `ScanProcesses` loop: `none` when the name
read fails (`continue`), otherwise the record with per-field defaults. -/
def buildRecord (currentUsername : String) (connMap : Int → List Connection)
    (p : RawProc) : Option ProcessInfo :=
  match p.nameRes with
  | none => none
  | some name =>
    let username := p.usernameRes.getD "unknown"
    let ptype := if username = currentUsername then ProcessType.UserProcess
                 else ProcessType.SystemProcess
    let cwd := p.cwdRes.getD ""
    let cmdline := p.cmdlineRes.getD ""
    let cpuPct := p.cpuRes.getD 0
    let memUsage := p.memRes.getD 0
    some { pid := p.pid, name := name, user := username, ptype := ptype,
           connections := connMap p.pid, cwd := cwd, command := cmdline,
           appType := appTypeOf name cwd cmdline,
           cpuPercent := cpuPct, memoryUsage := memUsage }

/-- `scanner.ScanProcesses`, with the results of the three OS enumerations as
inputs.  `user.Current` or `process.Processes` failing is a hard error (the
Go function returns `nil, err`); `net.Connections` failing leaves the
connection map empty. -/
def scanProcesses (userRes : Except String String)
    (procsRes : Except String (List RawProc))
    (connsRes : Except String (List RawConn)) : Except String (List ProcessInfo) :=
  match userRes with
  | .error e => .error ("failed to get current user: " ++ e)
  | .ok currentUsername =>
    match procsRes with
    | .error e => .error ("failed to list processes: " ++ e)
    | .ok procs =>
      let connMap : Int → List Connection :=
        match connsRes with
        | .error _ => fun _ => []
        | .ok conns => connsFor conns
      .ok (procs.filterMap (buildRecord currentUsername connMap))

/-- `killPending`'s returned command body: try `scanner.KillProcess` on every
pid in order, counting successes and keeping the error of the most recent
failure (`lastErr`). -/
def killPendingRun (kill : Int → Option String) (pids : List Int) : Nat × Option String :=
  pids.foldl
    (fun acc pid =>
      match kill pid with
      | some e => (acc.1, some e)
      | none => (acc.1 + 1, acc.2))
    (0, none)

/-! ### Session model (`part_001`, package `main`)

The bubbletea `model` struct, restricted to the core state the spec covers.
Purely presentational sub-state (lipgloss styles, the spinner, the focus
flags of the table and text-input widgets) is not modelled; of the `table`
widget we keep the data it stores for the core: the rows, the cursor, and
the column widths.  Table-internal cursor navigation (arrow keys and the
table's own default key map) is the excluded presentation widget. -/

/-- One `table.Column` (title and width; the width is a Go `int`). -/
structure Column where
  title : String
  width : Int
deriving DecidableEq, Repr

/-- One `table.Row` as built by `updateTable`:
`[check, pid, name, ports, cpu, mem, appType]`. -/
structure Row where
  check : String
  pidStr : String
  name : String
  ports : String
  cpu : String
  mem : String
  appType : String
deriving DecidableEq, Repr

/-- The sort-key constants `SortPID .. SortMem` (Go `iota`). -/
def SortPID : Nat := 0
/-- `SortName`. -/
def SortName : Nat := 1
/-- `SortPorts`. -/
def SortPorts : Nat := 2
/-- `SortCPU`. -/
def SortCPU : Nat := 3
/-- `SortMem`. -/
def SortMem : Nat := 4

/-- The `main.model` struct.  `selectedPids` (a Go `map[int32]struct{}`) is
kept as a duplicate-free list in insertion order; Go's map iteration order is
unspecified and no claim depends on it.  `searchValue` is
`m.textInput.Value()`. -/
structure Model where
  processes : List ProcessInfo
  selectedPids : List Int
  activeTab : Nat
  width : Int
  height : Int
  loading : Bool
  filterPorts : Bool
  sortBy : Nat
  sortDesc : Bool
  searchValue : String
  searching : Bool
  confirming : Bool
  pendingPids : List Int
  notification : String
  err : Option String
  cursor : Int
  rows : List Row
  columns : List Column
deriving DecidableEq, Repr

/-- The column list of `initialModel`. -/
def initialColumns : List Column :=
  [⟨"X", 2⟩, ⟨"PID", 8⟩, ⟨"Name", 20⟩, ⟨"Ports", 15⟩,
   ⟨"CPU%", 6⟩, ⟨"Mem", 10⟩, ⟨"Type", 8⟩]

/-- `main.initialModel`. -/
def initialModel : Model :=
  { processes := [], selectedPids := [], activeTab := 0, width := 0, height := 0,
    loading := true, filterPorts := true, sortBy := SortPorts, sortDesc := true,
    searchValue := "", searching := false, confirming := false, pendingPids := [],
    notification := "", err := none, cursor := 0, rows := [], columns := initialColumns }

/-! ### View derivation (`updateTable`) -/

/-- The tab filter of `updateTable`: `false` for records whose type does not
match the active tab (the `continue` branch). -/
def tabKeep (m : Model) (p : ProcessInfo) : Bool :=
  !((m.activeTab == 0 && !(p.ptype == ProcessType.UserProcess)) ||
    (m.activeTab == 1 && !(p.ptype == ProcessType.SystemProcess)))

/-- The ports-only filter of `updateTable`. -/
def portsKeep (m : Model) (p : ProcessInfo) : Bool :=
  !(m.filterPorts && p.connections.isEmpty)

/-- The search test of `updateTable`, applied to the already-lowercased
search text: name match or any port's decimal string match. -/
def searchMatches (search : String) (p : ProcessInfo) : Bool :=
  strContains (lowerStr p.name) search ||
    p.connections.any fun c => strContains (natDecStr c.port) search

/-- The search filter of `updateTable` (records pass when the search text is
empty). -/
def searchKeep (m : Model) (p : ProcessInfo) : Bool :=
  if lowerStr m.searchValue ≠ "" then searchMatches (lowerStr m.searchValue) p else true

/-- The filter loop of `updateTable`: a record reaches `filtered` iff no
`continue` fires, in snapshot order. -/
def keepProc (m : Model) (p : ProcessInfo) : Bool :=
  if !(tabKeep m p) then false
  else if !(portsKeep m p) then false
  else if !(searchKeep m p) then false
  else true

/-- `filtered` of `updateTable`. -/
def filteredProcs (m : Model) : List ProcessInfo :=
  m.processes.filter (keepProc m)

/-- The `less` closure handed to `sort.Slice` in `updateTable`, before the
`sortDesc` inversion. -/
def goLess (sortBy : Nat) (a b : ProcessInfo) : Bool :=
  match sortBy with
  | 0 => decide (a.pid < b.pid)
  | 1 => decide (a.name < b.name)
  | 2 =>
    if a.connections.length = b.connections.length then decide (a.pid < b.pid)
    else decide (a.connections.length < b.connections.length)
  | 3 => decide (a.cpuPercent < b.cpuPercent)
  | 4 => decide (a.memoryUsage < b.memoryUsage)
  | _ => decide (a.pid < b.pid)

/-- The full comparator: `sortDesc` returns `!less`. -/
def cmpModel (m : Model) (a b : ProcessInfo) : Bool :=
  if m.sortDesc then !(goLess m.sortBy a b) else goLess m.sortBy a b

/-- Insertion of one element against a `sort.Slice` comparator. -/
def insertGo (less : α → α → Bool) (x : α) : List α → List α
  | [] => [x]
  | y :: t => if less x y then x :: y :: t else y :: insertGo less x t

/-- Model of `sort.Slice less`: for comparators that order the list elements
strictly, the unique permutation every conforming sort returns. -/
def sortGo (less : α → α → Bool) : List α → List α
  | [] => []
  | x :: t => insertGo less x (sortGo less t)

/-- The sorted `filtered` slice of `updateTable`. -/
def sortedProcs (m : Model) : List ProcessInfo :=
  sortGo (cmpModel m) (filteredProcs m)

/-- The joined ports cell before truncation: `LISTEN` ports first, each as
`port(L)`, then the others as `port(E)`, comma-separated. -/
def portsCellStr (p : ProcessInfo) : String :=
  let listen := p.connections.filterMap fun c =>
    if c.status = "LISTEN" then some (natDecStr c.port ++ "(L)") else none
  let other := p.connections.filterMap fun c =>
    if c.status = "LISTEN" then none else some (natDecStr c.port ++ "(E)")
  String.intercalate ", " (listen ++ other)

/-- Go string slicing `s[:k]`: `none` models the runtime panic for an
out-of-range (in particular negative) bound. -/
def goSliceTo (s : String) (k : Int) : Option String :=
  if k < 0 || k > (s.length : Int) then none
  else some ⟨s.data.take k.toNat⟩

/-- The ports-cell truncation of `updateTable`:
`if len(portsStr) > portsWidth { portsStr = portsStr[:portsWidth-3] + "..." }`. -/
def truncPorts (s : String) (w : Int) : Option String :=
  if (s.length : Int) > w then (goSliceTo s (w - 3)).map (· ++ "...") else some s

/-- `%.1f` of the exact rational `num/den`, rounding half to even.  The Go
original formats a `float64`; the binary representation can differ from the
exact rational in the last place, and no claim depends on this cell. -/
def oneDecimal (num den : Nat) : String :=
  let t := 10 * num
  let q := t / den
  let r := t % den
  let q' := if 2 * r > den || (2 * r == den && q % 2 == 1) then q + 1 else q
  natDecStr (q' / 10) ++ "." ++ natDecStr (q' % 10)

/-- The `"KMGTPE"[exp]` lookup of `formatBytes`. -/
def kmgtpe : Nat → Char
  | 0 => 'K' | 1 => 'M' | 2 => 'G' | 3 => 'T' | 4 => 'P' | _ => 'E'

/-- The unit-finding loop of `formatBytes`, with structural fuel (`n` itself
suffices: the value shrinks by a factor of 1024 per step). -/
def fbLoopCore : Nat → Nat → Nat → Nat → Nat × Nat
  | 0, _, div, exp => (div, exp)
  | fuel + 1, n, div, exp =>
    if n ≥ 1024 then fbLoopCore fuel (n / 1024) (div * 1024) (exp + 1)
    else (div, exp)

/-- The unit-finding loop of `formatBytes`. -/
def fbLoop (n div exp : Nat) : Nat × Nat :=
  fbLoopCore n n div exp

/-- `main.formatBytes`. -/
def formatBytes (b : Nat) : String :=
  if b < 1024 then natDecStr b ++ " B"
  else
    let de := fbLoop (b / 1024) 1024 0
    oneDecimal b de.1 ++ " " ++ ⟨[kmgtpe de.2]⟩ ++ "B"

/-- The CPU cell `fmt.Sprintf("%.1f%%", p.CPUPercent)` at the integer
granularity of the model. -/
def cpuCell (i : Int) : String :=
  intDecStr i ++ ".0%"

/-- The ports column width read back from the table:
`15` unless the table has more than three columns. -/
def portsWidthOf (m : Model) : Int :=
  match m.columns[3]? with
  | some c => c.width
  | none => 15

/-- One row of the `updateTable` row loop; `none` models the slicing panic in
the ports-cell truncation. -/
def renderRow (m : Model) (p : ProcessInfo) : Option Row :=
  let check := if m.selectedPids.contains p.pid then "x" else " "
  (truncPorts (portsCellStr p) (portsWidthOf m)).map fun ps =>
    { check := check, pidStr := intDecStr p.pid, name := p.name, ports := ps,
      cpu := cpuCell p.cpuPercent, mem := formatBytes p.memoryUsage,
      appType := p.appType }

/-- The row list built by `updateTable`. -/
def updateTableRows (m : Model) : Option (List Row) :=
  (sortedProcs m).mapM (renderRow m)

/-- The cursor clamp at the end of `updateTable` (`SetCursor(len(rows)-1)`
when the old cursor falls past the new row count; the bubbles `SetCursor`
clamps into `[0, len-1]`, which is `-1` for an empty row list). -/
def clampCursor (rowCount : Nat) (cursor : Int) : Int :=
  if cursor ≥ (rowCount : Int) then
    min (max ((rowCount : Int) - 1) 0) ((rowCount : Int) - 1)
  else cursor

/-- `updateTable`: recompute the rows and clamp the cursor; `none` models the
ports-cell slicing panic. -/
def updateTable (m : Model) : Option Model :=
  (updateTableRows m).map fun rows =>
    { m with rows := rows, cursor := clampCursor rows.length m.cursor }

/-! ### The update function (`model.Update`) -/

/-- A key press, by its `tea.KeyMsg.String()` value: a printable character,
or one of the named keys the program distinguishes. -/
inductive Key where
  | char (c : Char)
  | tab
  | enter
  | esc
  | ctrlC
deriving DecidableEq, Repr

/-- A message of the event loop (spinner frames are presentation and the
quit command is not modelled as state). -/
inductive Msg where
  | key (k : Key)
  | windowSize (w h : Int)
  | scanStart
  | scan (procs : List ProcessInfo)
  | tick
  | killResult (count : Nat) (err : Option String)
  | notificationTimeout
  | errMsg (e : String)
deriving Repr

/-- `toggleSelection`: read the pid back from the row under the cursor
(`fmt.Sscanf(row[1], "%d", &pid)`) and toggle its membership. -/
def toggleSelection (m : Model) : Model :=
  match m.rows[m.cursor.toNat]? with
  | none => m
  | some row =>
    if 0 ≤ m.cursor then
      let pid := sscanfInt row.pidStr
      if m.selectedPids.contains pid then
        { m with selectedPids := m.selectedPids.filter (fun q => !(q == pid)) }
      else
        { m with selectedPids := m.selectedPids ++ [pid] }
    else m

/-- `startKillProcess`: capture the selection (or the row under the cursor)
as the pending kill targets and enter confirmation. -/
def startKillProcess (m : Model) : Model :=
  let victims : List Int :=
    if m.selectedPids.length > 0 then m.selectedPids
    else
      match m.rows[m.cursor.toNat]? with
      | some row => if 0 ≤ m.cursor then [sscanfInt row.pidStr] else []
      | none => []
  if victims.length = 0 then { m with notification := "No process selected." }
  else { m with pendingPids := victims, confirming := true }

/-- The column-width computation of the `tea.WindowSizeMsg` branch.
`int(float64(avail) * 0.4)` is modelled as `2 * avail / 5`; the two agree on
every width a terminal can deliver (the float product exceeds the exact
value by strictly less than the distance to the next integer). -/
def resizeColumns (w : Int) : List Column :=
  let tableWidth := w - 4
  let avail0 := tableWidth - 34
  let avail : Nat := if avail0 < 0 then 0 else avail0.toNat
  let nameW0 := 2 * avail / 5
  let nameW := if nameW0 < 10 ∧ avail ≥ 10 then 10 else nameW0
  let portsW := avail - nameW
  [⟨"X", 2⟩, ⟨"PID", 8⟩, ⟨"Name", (nameW : Int)⟩, ⟨"Ports", (portsW : Int)⟩,
   ⟨"CPU%", 6⟩, ⟨"Mem", 10⟩, ⟨"Type", 8⟩]

/-- The `tea.KeyMsg` branch of `Update`.  The result is `none` when
`updateTable` panics.  The search branch models the text-input edit as
appending the typed character (richer editing is the excluded widget); the
confirming branch lowercases the key string as the code does. -/
def stepKey (m : Model) (k : Key) : Option Model :=
  if m.searching then
    match k with
    | .enter => some { m with searching := false }
    | .esc => some { m with searching := false }
    | .char c => updateTable { m with searchValue := ⟨m.searchValue.data ++ [c]⟩ }
    | _ => updateTable m
  else if m.confirming then
    match k with
    | .char c =>
      if c.toLower = 'y' then
        some { m with confirming := false,
                      notification := "Killing " ++ natDecStr m.pendingPids.length
                        ++ " process(s)..." }
      else if c.toLower = 'n' then
        some { m with confirming := false, pendingPids := [],
                      notification := "Cancelled." }
      else some m
    | .esc =>
      some { m with confirming := false, pendingPids := [],
                    notification := "Cancelled." }
    | _ => some m
  else
    match k with
    | .char 'q' => some m
    | .ctrlC => some m
    | .tab => updateTable { m with activeTab := (m.activeTab + 1) % 2 }
    | .char ' ' => updateTable (toggleSelection m)
    | .char 'k' => some (startKillProcess m)
    | .char 'f' => updateTable { m with filterPorts := !m.filterPorts }
    | .char 's' => updateTable { m with sortBy := (m.sortBy + 1) % 5 }
    | .char 'o' => updateTable { m with sortDesc := !m.sortDesc }
    | .char '/' => some { m with searching := true }
    | _ => some m

/-- `model.Update`, restricted to the modelled state.  Commands (the spinner
tick, the scan dispatch, the notification timer and the kill command whose
eventual result arrives as `Msg.killResult`) are not state. -/
def stepMsg (m : Model) (msg : Msg) : Option Model :=
  match msg with
  | .key k => stepKey m k
  | .windowSize w h =>
    some { m with width := w, height := h, columns := resizeColumns w }
  | .scanStart => some { m with loading := true }
  | .scan procs => updateTable { m with processes := procs, loading := false }
  | .tick => some m
  | .killResult count err =>
    match err with
    | some e => some { m with notification := "Error: " ++ e }
    | none =>
      some { m with notification := "Successfully killed " ++ natDecStr count
                      ++ " process(s)",
                    selectedPids := [] }
  | .notificationTimeout => some { m with notification := "" }
  | .errMsg e => some { m with err := some e }

/-! ### Claim-side relations and concrete scenario inputs -/

/-- The number of connections of a record (the `PortCount` sort key). -/
def portCount (p : ProcessInfo) : Nat :=
  p.connections.length

/-- Ascending port-count order with the ascending-pid tie-break. -/
def tieAsc (a b : ProcessInfo) : Prop :=
  portCount a < portCount b ∨ (portCount a = portCount b ∧ a.pid ≤ b.pid)

/-- Descending port-count order with the descending-pid tie-break. -/
def tieDesc (a b : ProcessInfo) : Prop :=
  portCount b < portCount a ∨ (portCount a = portCount b ∧ b.pid ≤ a.pid)

instance : DecidableRel tieAsc := fun _ _ => by unfold tieAsc; infer_instance

instance : DecidableRel tieDesc := fun _ _ => by unfold tieDesc; infer_instance

/-- A user-owned process with no connections (pid 100 of the end-to-end
scenario). -/
def p100ex : ProcessInfo :=
  { pid := 100, name := "alpha", user := "me", ptype := .UserProcess,
    connections := [], cwd := "", command := "", appType := "Binary",
    cpuPercent := 0, memoryUsage := 0 }

/-- A user-owned process with one `LISTEN` connection on port 8080 (pid 200
of the end-to-end scenario). -/
def p200ex : ProcessInfo :=
  { p100ex with pid := 200, name := "beta", connections := [⟨8080, "LISTEN"⟩] }

/-- The end-to-end scenario session: the default view parameters of
`initialModel` over the two-process snapshot. -/
def m8 : Model :=
  { initialModel with processes := [p100ex, p200ex] }

/-- Two user-owned processes with equal connection counts, listed with the
larger pid first. -/
def q5ex : ProcessInfo := { p100ex with pid := 5 }

/-- The equal-count partner of `q5ex`. -/
def q2ex : ProcessInfo := { p100ex with pid := 2 }

/-- A session sorting by `PortCount` descending over two records with equal
connection counts. -/
def mC1 : Model :=
  { initialModel with
      processes := [q5ex, q2ex]
      filterPorts := false
      sortBy := SortPorts
      sortDesc := true }

/-- The `"redis-server"` process with a connection on port 6379. -/
def redisEx : ProcessInfo :=
  { p100ex with pid := 1, name := "redis-server", connections := [⟨6379, "LISTEN"⟩] }

/-- A kill oracle where exactly pid 2 fails. -/
def killOnly2Fails : Int → Option String :=
  fun p => if p = 2 then some "pid 2 error" else none

/-- A kill oracle where pids 1 and 2 fail with distinct errors. -/
def killBothFail : Int → Option String :=
  fun p => if p = 1 then some "error for pid 1" else some "error for pid 2"

/-- A session awaiting kill confirmation for pids 1 and 2. -/
def mC3 : Model :=
  { initialModel with
      loading := false
      confirming := true
      pendingPids := [1, 2]
      selectedPids := [1, 2] }

/-- The session after the user confirms with `y`. -/
def mC3y : Model :=
  (stepKey mC3 (Key.char 'y')).getD initialModel

/-- The session after a kill result carrying an error is delivered. -/
def mC3err : Model :=
  (stepMsg mC3y (Msg.killResult 1 (some "operation not permitted"))).getD initialModel

/-- A session with pid 7 selected, its process having no connections, and
the ports-only filter off. -/
def mW : Model :=
  { initialModel with
      processes := [{ p100ex with pid := 7 }]
      selectedPids := [7]
      filterPorts := false
      loading := false }

/-- `mW` after toggling the ports-only filter on (pid 7 becomes hidden). -/
def mWon : Model :=
  (stepKey mW (Key.char 'f')).getD initialModel

/-- `mWon` after toggling the ports-only filter off again. -/
def mWoff : Model :=
  (stepKey mWon (Key.char 'f')).getD initialModel

/-- A raw process whose name read succeeds and every other read fails. -/
def rawW : RawProc :=
  { pid := 42, nameRes := some "nginx", usernameRes := none, cwdRes := none,
    cmdlineRes := none, cpuRes := none, memRes := none }

/-- The session after a terminal resize to width 20: the derived ports
column width is 0. -/
def mResize : Model :=
  (stepMsg initialModel (Msg.windowSize 20 40)).getD initialModel

/-- Whether an `Except` value is an error. -/
def exceptErr {ε α : Type} : Except ε α → Bool
  | .error _ => true
  | .ok _ => false

/-! ### Helper lemmas: the sort model -/

theorem pairwiseOfForall {α : Type} {R : α → α → Prop} (h : ∀ a b, R a b) :
    ∀ l : List α, l.Pairwise R
  | [] => List.Pairwise.nil
  | _ :: t => List.Pairwise.cons (fun b _ => h _ b) (pairwiseOfForall h t)

theorem insertGo_mem {α : Type} (less : α → α → Bool) (x : α) :
    ∀ (t : List α) (a : α), a ∈ insertGo less x t ↔ a = x ∨ a ∈ t := by
  intro t
  induction t with
  | nil => intro a; simp [insertGo]
  | cons y t ih =>
    intro a
    unfold insertGo
    by_cases h : less x y = true
    · simp [h]
    · simp only [Bool.not_eq_true] at h
      simp [h, ih]
      tauto

theorem insertGo_pairwise {α : Type} (less : α → α → Bool)
    (trans : ∀ a b c, less a b = true → less b c = true → less a c = true)
    (x : α) :
    ∀ t : List α, t.Pairwise (fun a b => less b a = false) →
      (∀ y ∈ t, less x y = true → less y x = false) →
      (insertGo less x t).Pairwise (fun a b => less b a = false) := by
  intro t
  induction t with
  | nil => intro _ _; simp [insertGo]
  | cons y t ih =>
    intro hp hax
    have hpy : ∀ b ∈ t, less b y = false := fun b hb => List.rel_of_pairwise_cons hp hb
    have hpt := hp.of_cons
    unfold insertGo
    by_cases h : less x y = true
    · simp only [h, if_true]
      constructor
      · intro b hb
        rcases List.mem_cons.mp hb with hby | hbt
        · subst hby
          exact hax _ (List.mem_cons_self _ _) h
        · by_contra hbx
          simp only [Bool.not_eq_false] at hbx
          have h1 : less b y = true := trans b x y hbx h
          have h2 := hpy b hbt
          simp_all
      · exact hp
    · simp only [h, if_false]
      constructor
      · intro b hb
        rcases (insertGo_mem less x t b).mp hb with hbx | hbt
        · subst hbx
          simpa using h
        · exact hpy b hbt
      · exact ih hpt (fun z hz => hax z (by simp [hz]))

theorem sortGo_mem {α : Type} (less : α → α → Bool) :
    ∀ (l : List α) (a : α), a ∈ sortGo less l ↔ a ∈ l := by
  intro l
  induction l with
  | nil => intro a; simp [sortGo]
  | cons x t ih =>
    intro a
    unfold sortGo
    rw [insertGo_mem less x (sortGo less t) a, ih]
    simp

theorem sortGo_pairwise {α : Type} (less : α → α → Bool)
    (trans : ∀ a b c, less a b = true → less b c = true → less a c = true) :
    ∀ l : List α, l.Pairwise (fun a b => less a b = true → less b a = false) →
      (sortGo less l).Pairwise (fun a b => less b a = false) := by
  intro l
  induction l with
  | nil => intro _; simp [sortGo]
  | cons x t ih =>
    intro hp
    unfold sortGo
    apply insertGo_pairwise less trans x (sortGo less t) (ih hp.of_cons)
    intro y hy hxy
    exact List.rel_of_pairwise_cons hp ((sortGo_mem less t y).mp hy) hxy

/-! ### Helper lemmas: the PortCount comparator -/

theorem goLess2_iff (a b : ProcessInfo) :
    goLess 2 a b = true ↔
      (portCount a < portCount b ∨ (portCount a = portCount b ∧ a.pid < b.pid)) := by
  unfold goLess portCount
  split_ifs with h
  · simp [h]
  · simp only [decide_eq_true_eq]
    constructor
    · exact fun hl => Or.inl hl
    · intro hc
      rcases hc with hl | ⟨he, _⟩
      · exact hl
      · exact absurd he h

theorem goLess2_false_iff (a b : ProcessInfo) :
    goLess 2 a b = false ↔
      ¬(portCount a < portCount b ∨ (portCount a = portCount b ∧ a.pid < b.pid)) := by
  rw [← goLess2_iff]
  simp

theorem cmp_asc (m : Model) (h2 : m.sortBy = SortPorts) (hd : m.sortDesc = false)
    (a b : ProcessInfo) : cmpModel m a b = goLess 2 a b := by
  unfold cmpModel
  rw [h2, hd]
  rfl

theorem cmp_desc (m : Model) (h2 : m.sortBy = SortPorts) (hd : m.sortDesc = true)
    (a b : ProcessInfo) : cmpModel m a b = !(goLess 2 a b) := by
  unfold cmpModel
  rw [h2, hd]
  rfl

theorem cmp_asc_true_iff (m : Model) (h2 : m.sortBy = SortPorts)
    (hd : m.sortDesc = false) (a b : ProcessInfo) :
    cmpModel m a b = true ↔
      (portCount a < portCount b ∨ (portCount a = portCount b ∧ a.pid < b.pid)) := by
  rw [cmp_asc m h2 hd, goLess2_iff]

theorem cmp_asc_false_iff (m : Model) (h2 : m.sortBy = SortPorts)
    (hd : m.sortDesc = false) (a b : ProcessInfo) :
    cmpModel m a b = false ↔
      ¬(portCount a < portCount b ∨ (portCount a = portCount b ∧ a.pid < b.pid)) := by
  rw [cmp_asc m h2 hd, goLess2_false_iff]

theorem cmp_desc_true_iff (m : Model) (h2 : m.sortBy = SortPorts)
    (hd : m.sortDesc = true) (a b : ProcessInfo) :
    cmpModel m a b = true ↔
      ¬(portCount a < portCount b ∨ (portCount a = portCount b ∧ a.pid < b.pid)) := by
  rw [cmp_desc m h2 hd, Bool.not_eq_true', goLess2_false_iff]

theorem cmp_desc_false_iff (m : Model) (h2 : m.sortBy = SortPorts)
    (hd : m.sortDesc = true) (a b : ProcessInfo) :
    cmpModel m a b = false ↔
      (portCount a < portCount b ∨ (portCount a = portCount b ∧ a.pid < b.pid)) := by
  rw [cmp_desc m h2 hd, Bool.not_eq_false', goLess2_iff]

/-! ### Helper lemmas: `updateTable` frame and row marking -/

theorem updateTable_frame (m m' : Model) (h : updateTable m = some m') :
    m'.selectedPids = m.selectedPids ∧ m'.processes = m.processes ∧
    m'.sortBy = m.sortBy ∧ m'.sortDesc = m.sortDesc ∧
    m'.filterPorts = m.filterPorts ∧ m'.activeTab = m.activeTab ∧
    m'.searchValue = m.searchValue ∧ m'.columns = m.columns ∧
    m'.searching = m.searching ∧ m'.confirming = m.confirming ∧
    m'.pendingPids = m.pendingPids := by
  unfold updateTable at h
  cases hr : updateTableRows m with
  | none => rw [hr] at h; simp at h
  | some rows =>
    rw [hr] at h
    simp only [Option.map_some', Option.some.injEq] at h
    subst h
    exact ⟨rfl, rfl, rfl, rfl, rfl, rfl, rfl, rfl, rfl, rfl, rfl⟩

theorem renderRow_check (m : Model) (p : ProcessInfo) (row : Row)
    (h : renderRow m p = some row) :
    (row.check = "x" ↔ p.pid ∈ m.selectedPids) := by
  unfold renderRow at h
  cases ht : truncPorts (portsCellStr p) (portsWidthOf m) with
  | none => rw [ht] at h; simp at h
  | some ps =>
    rw [ht] at h
    simp only [Option.map_some', Option.some.injEq] at h
    subst h
    by_cases hc : m.selectedPids.contains p.pid
    · simp only [hc, if_true]
      rw [List.contains_eq_any_beq] at hc
      simp only [List.any_eq_true, beq_iff_eq] at hc
      obtain ⟨x, hx, hxe⟩ := hc
      subst hxe
      simp [hx]
    · simp only [hc, if_false]
      rw [List.contains_eq_any_beq] at hc
      simp only [List.any_eq_true, beq_iff_eq, not_exists] at hc
      constructor
      · intro hxx
        exact absurd hxx (by decide)
      · intro hmem
        exact absurd ⟨hmem, rfl⟩ (hc p.pid)

/-! ### Helper lemmas: digit strings and case folding -/

theorem char_isDigit_iff (c : Char) : c.isDigit = true ↔ 48 ≤ c.toNat ∧ c.toNat ≤ 57 := by
  simp only [Char.isDigit, Bool.and_eq_true, decide_eq_true_eq, ge_iff_le]
  exact Iff.rfl

theorem char_toNat_ofNat {n : Nat} (h : n.isValidChar) : (Char.ofNat n).toNat = n := by
  simp only [Char.ofNat, dif_pos h, Char.ofNatAux, Char.toNat]
  simp [UInt32.toNat, BitVec.toNat_ofNatLt]

theorem toLower_of_digit (c : Char) (h : c.isDigit = true) : Char.toLower c = c := by
  rw [char_isDigit_iff] at h
  unfold Char.toLower
  rw [if_neg]
  omega

theorem toLower_digit_eq (c : Char) (h : (Char.toLower c).isDigit = true) :
    Char.toLower c = c := by
  by_cases hc : Char.toNat c ≥ 65 ∧ Char.toNat c ≤ 90
  · exfalso
    have hl : Char.toLower c = Char.ofNat (Char.toNat c + 32) := by
      unfold Char.toLower
      rw [if_pos hc]
    have hv : (Char.toNat c + 32).isValidChar := Or.inl (by omega)
    rw [char_isDigit_iff, hl, char_toNat_ofNat hv] at h
    omega
  · unfold Char.toLower
    rw [if_neg hc]

theorem beq_toLower_digit (c d : Char) (hd : d.isDigit = true) :
    (Char.toLower c == d) = (c == d) := by
  rw [Bool.eq_iff_iff, beq_iff_eq, beq_iff_eq]
  constructor
  · intro h
    have hdig : (Char.toLower c).isDigit = true := by rw [h]; exact hd
    rw [← toLower_digit_eq c hdig]
    exact h
  · intro h
    subst h
    exact toLower_of_digit c hd

theorem leadsWith_map_toLower :
    ∀ (s t : List Char), (∀ c ∈ t, c.isDigit = true) →
      leadsWith (s.map Char.toLower) t = leadsWith s t := by
  intro s
  induction s with
  | nil => intro t _; simp [leadsWith]
  | cons c cs ih =>
    intro t ht
    cases t with
    | nil => simp [leadsWith]
    | cons d ds =>
      simp only [List.map_cons]
      unfold leadsWith
      rw [beq_toLower_digit c d (ht d (List.mem_cons_self _ _)),
        ih ds (fun x hx => ht x (List.mem_cons_of_mem _ hx))]

theorem containsSub_map_toLower :
    ∀ (t s : List Char), (∀ c ∈ t, c.isDigit = true) →
      containsSub t (s.map Char.toLower) = containsSub t s := by
  intro t
  induction t with
  | nil =>
    intro s _
    unfold containsSub
    cases s <;> simp [leadsWith]
  | cons d ds ih =>
    intro s ht
    unfold containsSub
    rw [leadsWith_map_toLower s (d :: ds) ht,
      ih s (fun x hx => ht x (List.mem_cons_of_mem _ hx))]

theorem digitChar_isDigit (d : Nat) : (digitChar d).isDigit = true := by
  unfold digitChar
  split <;> decide

theorem natDecCore_digits :
    ∀ (fuel n : Nat) (acc : List Char), (∀ c ∈ acc, c.isDigit = true) →
      ∀ c ∈ natDecCore fuel n acc, c.isDigit = true := by
  intro fuel
  induction fuel with
  | zero =>
    intro n acc hacc c hc
    unfold natDecCore at hc
    rcases List.mem_cons.mp hc with h | h
    · subst h; exact digitChar_isDigit n
    · exact hacc c h
  | succ fuel ih =>
    intro n acc hacc c hc
    unfold natDecCore at hc
    by_cases hn : n < 10
    · rw [if_pos hn] at hc
      rcases List.mem_cons.mp hc with h | h
      · subst h; exact digitChar_isDigit n
      · exact hacc c h
    · rw [if_neg hn] at hc
      refine ih (n / 10) (digitChar (n % 10) :: acc) ?_ c hc
      intro x hx
      rcases List.mem_cons.mp hx with h | h
      · subst h; exact digitChar_isDigit (n % 10)
      · exact hacc x h

theorem natDecStr_digits (n : Nat) : ∀ c ∈ (natDecStr n).data, c.isDigit = true :=
  natDecCore_digits n n [] (by simp)

theorem strContains_port_lower (n : Nat) (s : String) :
    strContains (natDecStr n) (lowerStr s) = strContains (natDecStr n) s := by
  unfold strContains lowerStr
  exact containsSub_map_toLower (natDecStr n).data s.data (natDecStr_digits n)

/-! ### Helper lemmas: termination aggregation and the filter pipeline -/

theorem getLast?_cons_or {α : Type} (a : α) (l : List α) (e : Option α) :
    ((a :: l).getLast?).or e = (l.getLast?).or (some a) := by
  cases l with
  | nil => simp [List.getLast?]
  | cons b t =>
    rw [List.getLast?_cons_cons]
    have hne : (b :: t).getLast? ≠ none := by
      simp
    cases hg : (b :: t).getLast? with
    | none => exact absurd hg hne
    | some x => simp [Option.or]

theorem killPendingRun_eq (kill : Int → Option String) (pids : List Int) :
    killPendingRun kill pids =
      (pids.countP (fun p => (kill p).isNone), (pids.filterMap kill).getLast?) := by
  have h : ∀ (l : List Int) (c : Nat) (e : Option String),
      l.foldl
        (fun acc pid =>
          match kill pid with
          | some er => (acc.1, some er)
          | none => (acc.1 + 1, acc.2))
        (c, e)
      = (c + l.countP (fun p => (kill p).isNone), ((l.filterMap kill).getLast?).or e) := by
    intro l
    induction l with
    | nil => intro c e; simp [Option.or]
    | cons p t ih =>
      intro c e
      rw [List.foldl_cons, List.countP_cons, List.filterMap_cons]
      cases hk : kill p with
      | none =>
        simp only [hk]
        rw [ih (c + 1) e]
        simp only [Option.isNone_none, if_pos]
        rw [Prod.mk.injEq]
        constructor <;> [omega; rfl]
      | some er =>
        simp only [hk]
        rw [ih c (some er), getLast?_cons_or]
        simp only [Option.isNone_some, Bool.false_eq_true, if_false, Nat.add_zero]
  unfold killPendingRun
  rw [h pids 0 none]
  simp [Option.or_none]

theorem keepProc_eq (m : Model) (p : ProcessInfo) :
    keepProc m p = (tabKeep m p && portsKeep m p && searchKeep m p) := by
  unfold keepProc
  cases htab : tabKeep m p <;> cases hport : portsKeep m p <;>
    cases hsearch : searchKeep m p <;> simp [htab, hport, hsearch]

theorem filteredProcs_eq (m : Model) :
    filteredProcs m =
      m.processes.filter fun p => tabKeep m p && portsKeep m p && searchKeep m p := by
  unfold filteredProcs
  congr 1
  funext p
  exact keepProc_eq m p

/-! ### Claim C1 -/

/-- C1, counterexample: in `mC1` the two derived records have equal
connection counts and `sortDescending` is enabled, yet the derived order is
`[5, 2]` — descending pid, not the ascending-pid tie-break the claim states
for the descending case. -/
theorem claim_C1_counterexample :
    mC1.sortBy = SortPorts ∧ mC1.sortDesc = true ∧
    portCount q5ex = portCount q2ex ∧
    (sortedProcs mC1).map ProcessInfo.pid = [5, 2] ∧
    (sortedProcs mC1).map ProcessInfo.pid ≠ [2, 5] := by
  refine ⟨rfl, rfl, rfl, ?_, ?_⟩ <;> decide

/-- C1, amended: sorting by `PortCount` breaks port-count ties by ascending
pid when `sortDescending` is off; when `sortDescending` is on the comparator
inversion `!less` applies to the pid tie-break as well, so records with equal
counts (and, as in every snapshot, pairwise-distinct pids) appear in
descending pid order. -/
theorem claim_C1_amended (m : Model) (h2 : m.sortBy = SortPorts) :
    (m.sortDesc = false → (sortedProcs m).Pairwise tieAsc) ∧
    (m.sortDesc = true →
      (filteredProcs m).Pairwise (fun a b => a.pid ≠ b.pid) →
      (sortedProcs m).Pairwise tieDesc) := by
  constructor
  · intro hd
    unfold sortedProcs
    have hpw := sortGo_pairwise (cmpModel m)
      (fun a b c hab hbc => by
        rw [cmp_asc_true_iff m h2 hd] at hab hbc ⊢
        omega)
      (filteredProcs m)
      (pairwiseOfForall
        (fun a b => by
          rw [cmp_asc_true_iff m h2 hd, cmp_asc_false_iff m h2 hd]
          omega)
        (filteredProcs m))
    refine hpw.imp ?_
    intro a b h
    rw [cmp_asc_false_iff m h2 hd] at h
    unfold tieAsc portCount at *
    omega
  · intro hd hnd
    unfold sortedProcs
    have hpw := sortGo_pairwise (cmpModel m)
      (fun a b c hab hbc => by
        rw [cmp_desc_true_iff m h2 hd] at hab hbc ⊢
        omega)
      (filteredProcs m)
      (hnd.imp (fun {a b} hne => by
        rw [cmp_desc_true_iff m h2 hd, cmp_desc_false_iff m h2 hd]
        omega))
    refine hpw.imp ?_
    intro a b h
    rw [cmp_desc_false_iff m h2 hd] at h
    unfold tieDesc portCount at *
    omega

/-- C1, witness: the amended theorem evaluated on the concrete two-record
session, ascending and descending. -/
theorem claim_C1_witness :
    (sortedProcs { mC1 with sortDesc := false }).Pairwise tieAsc ∧
    (sortedProcs mC1).Pairwise tieDesc :=
  ⟨(claim_C1_amended { mC1 with sortDesc := false } rfl).1 rfl,
   (claim_C1_amended mC1 rfl).2 rfl (by decide)⟩

/-! ### Claim C2 -/

/-- C2, counterexample: when pids 1 and 2 both fail with distinct errors,
`killPending` returns pid 2's error — the error of the *last* failure, not
the first error encountered as the claim states. -/
theorem claim_C2_counterexample :
    killPendingRun killBothFail [1, 2] = (0, some "error for pid 2") ∧
    ("error for pid 2" : String) ≠ "error for pid 1" := by
  refine ⟨?_, ?_⟩ <;> decide

/-- C2, amended: each pid is attempted independently — the success count is
exactly the number of pids whose termination succeeded, wherever failures
occur — but the surfaced error is the *last* error encountered, not the
first.  For `[1,2,3]` with only pid 2 failing the result is
`{succeeded: 2, firstError: pid 2's error}` as the claim's concrete case
states (there a single error is both first and last). -/
theorem claim_C2_amended :
    (∀ (kill : Int → Option String) (pids : List Int),
      (killPendingRun kill pids).1 = pids.countP (fun p => (kill p).isNone) ∧
      (killPendingRun kill pids).2 = (pids.filterMap kill).getLast?) ∧
    killPendingRun killOnly2Fails [1, 2, 3] = (2, some "pid 2 error") := by
  constructor
  · intro kill pids
    rw [killPendingRun_eq kill pids]
    exact ⟨rfl, rfl⟩
  · decide

/-! ### Claim C3 -/

/-- C3, counterexample: confirming the pending kill posts the notification
`"Killing 2 process(s)..."` (not `"Killing 2 process(es)..."` as the claim
quotes), and when the delivered termination result carries an error the
session posts `"Error: ..."` — not a success-count summary — and does *not*
clear the selection set. -/
theorem claim_C3_counterexample :
    stepKey mC3 (Key.char 'y') = some mC3y ∧
    mC3y.notification = "Killing 2 process(s)..." ∧
    mC3y.notification ≠ "Killing 2 process(es)..." ∧
    mC3y.confirming = false ∧
    stepMsg mC3y (Msg.killResult 1 (some "operation not permitted")) = some mC3err ∧
    mC3err.selectedPids = [1, 2] ∧
    mC3err.selectedPids ≠ [] ∧
    mC3err.notification = "Error: operation not permitted" := by
  refine ⟨?_, ?_, ?_, ?_, ?_, ?_, ?_, ?_⟩ <;> decide

/-- C3, amended: confirming with `y` immediately posts
`"Killing N process(s)..."` for the N pending targets and returns to
`Normal`; a termination result with no error posts
`"Successfully killed N process(s)"` and clears the selection set; a result
carrying an error posts `"Error: <err>"` and leaves the selection set
unchanged. -/
theorem claim_C3_amended (m : Model) (hs : m.searching = false)
    (hc : m.confirming = true) :
    stepKey m (Key.char 'y') =
      some { m with confirming := false,
                    notification := "Killing " ++ natDecStr m.pendingPids.length
                      ++ " process(s)..." } ∧
    (∀ count : Nat,
      stepMsg m (Msg.killResult count none) =
        some { m with notification := "Successfully killed " ++ natDecStr count
                        ++ " process(s)",
                      selectedPids := [] }) ∧
    (∀ (count : Nat) (e : String),
      stepMsg m (Msg.killResult count (some e)) =
        some { m with notification := "Error: " ++ e }) := by
  refine ⟨?_, ?_, ?_⟩
  · unfold stepKey
    rw [hs, hc]
    rfl
  · intro count
    unfold stepMsg
    rfl
  · intro count e
    unfold stepMsg
    rfl

/-- C3, witness: the amended theorem evaluated on the concrete confirming
session `mC3`. -/
theorem claim_C3_witness :
    stepKey mC3 (Key.char 'y') =
      some { mC3 with confirming := false,
                      notification := "Killing " ++ natDecStr mC3.pendingPids.length
                        ++ " process(s)..." } ∧
    stepMsg mC3 (Msg.killResult 2 none) =
      some { mC3 with notification := "Successfully killed " ++ natDecStr 2
                        ++ " process(s)",
                      selectedPids := [] } :=
  ⟨(claim_C3_amended mC3 rfl rfl).1,
   (claim_C3_amended mC3 rfl rfl).2.1 2⟩

/-! ### Claim C4 -/

/-- C4: with the session in `Normal`, cycling the sort key (`s`), toggling
the sort direction (`o`), or toggling the ports-only filter (`f`) leaves the
selection set unchanged — any selected pid P stays selected, including when
the toggle hides it — and in every derived row list a row is marked `"x"`
exactly when its record's pid is in the selection set, so P reappears marked
selected once visible again. -/
theorem claim_C4_selection_persistence (m : Model) (P : Int)
    (hs : m.searching = false) (hc : m.confirming = false)
    (hP : P ∈ m.selectedPids) :
    ∀ k ∈ [Key.char 's', Key.char 'o', Key.char 'f'],
      ∀ m', stepKey m k = some m' →
        m'.selectedPids = m.selectedPids ∧ P ∈ m'.selectedPids ∧
        (∀ (p : ProcessInfo) (row : Row), renderRow m' p = some row →
          (row.check = "x" ↔ p.pid ∈ m'.selectedPids)) := by
  intro k hk m' hstep
  simp only [List.mem_cons, List.not_mem_nil, or_false] at hk
  have hsel : m'.selectedPids = m.selectedPids := by
    rcases hk with hk | hk | hk
    · subst hk
      have he : stepKey m (Key.char 's') = updateTable { m with sortBy := (m.sortBy + 1) % 5 } := by
        unfold stepKey
        rw [hs, hc]
        rfl
      rw [he] at hstep
      exact (updateTable_frame _ _ hstep).1
    · subst hk
      have he : stepKey m (Key.char 'o') = updateTable { m with sortDesc := !m.sortDesc } := by
        unfold stepKey
        rw [hs, hc]
        rfl
      rw [he] at hstep
      exact (updateTable_frame _ _ hstep).1
    · subst hk
      have he : stepKey m (Key.char 'f') = updateTable { m with filterPorts := !m.filterPorts } := by
        unfold stepKey
        rw [hs, hc]
        rfl
      rw [he] at hstep
      exact (updateTable_frame _ _ hstep).1
  refine ⟨hsel, hsel ▸ hP, ?_⟩
  intro p row hrow
  exact renderRow_check m' p row hrow

/-- C4, witness: on the concrete session `mW` (pid 7 selected, no
connections, filter off), toggling the filter on hides pid 7 but keeps it
selected, and toggling it off again derives a row marked `"x"` for it. -/
theorem claim_C4_witness :
    stepKey mW (Key.char 'f') = some mWon ∧
    mWon.selectedPids = mW.selectedPids ∧ (7 : Int) ∈ mWon.selectedPids ∧
    sortedProcs mWon = [] ∧
    stepKey mWon (Key.char 'f') = some mWoff ∧
    mWoff.selectedPids = mW.selectedPids ∧
    (sortedProcs mWoff).map ProcessInfo.pid = [7] ∧
    (∀ (p : ProcessInfo) (row : Row), renderRow mWoff p = some row →
      (row.check = "x" ↔ p.pid ∈ mWoff.selectedPids)) := by
  have h1 := claim_C4_selection_persistence mW 7 rfl rfl (by decide)
    (Key.char 'f') (by decide) mWon (by decide)
  have h2 := claim_C4_selection_persistence mWon 7 rfl rfl
    (by rw [h1.1]; decide) (Key.char 'f') (by decide) mWoff (by decide)
  refine ⟨by decide, h1.1, h1.2.1, by decide, by decide, ?_, by decide, h2.2.2⟩
  rw [h2.1, h1.1]

/-! ### Claim C9 -/

/-- C9: while the session is confirming a kill, every key other than
`y`/`n` (in either case) and `Escape` leaves the model — in particular the
selection set and every view parameter — completely unchanged, and each of
`y`, `n`, `Escape` returns the session to `Normal`. -/
theorem claim_C9_confirm_exclusivity (m : Model) (hs : m.searching = false)
    (hc : m.confirming = true) :
    (∀ k : Key, (∀ c : Char, k = Key.char c → c.toLower ≠ 'y' ∧ c.toLower ≠ 'n') →
      k ≠ Key.esc → stepKey m k = some m) ∧
    (∀ c : Char, c.toLower = 'y' →
      (stepKey m (Key.char c)).map Model.confirming = some false) ∧
    (∀ c : Char, c.toLower = 'n' →
      (stepKey m (Key.char c)).map Model.confirming = some false) ∧
    (stepKey m Key.esc).map Model.confirming = some false := by
  refine ⟨?_, ?_, ?_, ?_⟩
  · intro k hchar hesc
    unfold stepKey
    rw [hs, hc]
    cases k with
    | char c =>
      obtain ⟨hy, hn⟩ := hchar c rfl
      simp only [if_neg hy, if_neg hn]
      rfl
    | tab => rfl
    | enter => rfl
    | esc => exact absurd rfl hesc
    | ctrlC => rfl
  · intro c hy
    unfold stepKey
    rw [hs, hc]
    simp only [if_pos hy]
    rfl
  · intro c hn
    unfold stepKey
    rw [hs, hc]
    by_cases hy : c.toLower = 'y'
    · simp only [if_pos hy]
      rfl
    · simp only [if_neg hy, if_pos hn]
      rfl
  · unfold stepKey
    rw [hs, hc]
    rfl

/-- C9, witness: on the concrete confirming session `mC3`, the filter key
`f` and the selection key (space) are ignored outright, and `Y` confirms. -/
theorem claim_C9_witness :
    stepKey mC3 (Key.char 'f') = some mC3 ∧
    stepKey mC3 (Key.char ' ') = some mC3 ∧
    (stepKey mC3 (Key.char 'Y')).map Model.confirming = some false :=
  ⟨(claim_C9_confirm_exclusivity mC3 rfl rfl).1 (Key.char 'f')
      (fun c hce => by cases hce; exact ⟨by decide, by decide⟩) (by decide),
   (claim_C9_confirm_exclusivity mC3 rfl rfl).1 (Key.char ' ')
      (fun c hce => by cases hce; exact ⟨by decide, by decide⟩) (by decide),
   (claim_C9_confirm_exclusivity mC3 rfl rfl).2.1 'Y' (by decide)⟩

/-! ### Claim C5 -/

/-- C5: a process whose name read fails is omitted from the snapshot
entirely; when the name read succeeds the record is always included, with
owner `"unknown"`, working directory `""`, command line `""`, CPU `0` and
memory `0` substituted for whichever individual reads failed — no
single-field failure drops the record. -/
theorem claim_C5_field_defaults (cu : String) (connMap : Int → List Connection)
    (p : RawProc) :
    (p.nameRes = none → buildRecord cu connMap p = none) ∧
    (∀ nm : String, p.nameRes = some nm →
      ∃ r : ProcessInfo, buildRecord cu connMap p = some r ∧
        r.name = nm ∧ r.pid = p.pid ∧
        (p.usernameRes = none → r.user = "unknown") ∧
        (p.cwdRes = none → r.cwd = "") ∧
        (p.cmdlineRes = none → r.command = "") ∧
        (p.cpuRes = none → r.cpuPercent = 0) ∧
        (p.memRes = none → r.memoryUsage = 0)) := by
  constructor
  · intro hn
    unfold buildRecord
    rw [hn]
  · intro nm hn
    refine ⟨_, by unfold buildRecord; rw [hn], rfl, rfl, ?_, ?_, ?_, ?_, ?_⟩ <;>
      intro hf <;> simp [hf]

/-- C5, witness: the concrete raw process `rawW` (name readable, every other
read failing) yields a record with all the defaults. -/
theorem claim_C5_witness :
    rawW.nameRes = some "nginx" ∧ rawW.usernameRes = none ∧
    buildRecord "me" (fun _ => []) rawW ≠ none ∧
    (buildRecord "me" (fun _ => []) rawW).map ProcessInfo.user = some "unknown" ∧
    (buildRecord "me" (fun _ => []) rawW).map ProcessInfo.cwd = some "" ∧
    (buildRecord "me" (fun _ => []) rawW).map ProcessInfo.command = some "" ∧
    (buildRecord "me" (fun _ => []) rawW).map ProcessInfo.cpuPercent = some 0 ∧
    (buildRecord "me" (fun _ => []) rawW).map ProcessInfo.memoryUsage = some 0 := by
  obtain ⟨-, h⟩ := claim_C5_field_defaults "me" (fun _ => []) rawW
  obtain ⟨r, hr, hname, hpid, huser, hcwd, hcmd, hcpu, hmem⟩ := h "nginx" rfl
  rw [hr]
  refine ⟨rfl, rfl, by simp, ?_, ?_, ?_, ?_, ?_⟩ <;>
    rw [Option.map_some']
  · rw [huser rfl]
  · rw [hcwd rfl]
  · rw [hcmd rfl]
  · rw [hcpu rfl]
  · rw [hmem rfl]

/-! ### Claim C6 -/

/-- C6, counterexample: `ScanProcesses` also returns a hard error when the
current-user lookup fails, even though process enumeration succeeded — the
hard-error condition is not *exactly* "process enumeration failed". -/
theorem claim_C6_counterexample :
    scanProcesses (Except.error "permission denied") (Except.ok []) (Except.ok [])
      = Except.error "failed to get current user: permission denied" := by
  rfl

/-- C6, amended: the collector returns a hard error (no partial snapshot)
exactly when the current-user lookup or the process enumeration fails;
failure of the connection enumeration is not an error — the scan proceeds
with an empty pid-to-connections mapping and every record of that cycle
carries an empty connection list. -/
theorem claim_C6_amended (userRes : Except String String)
    (procsRes : Except String (List RawProc))
    (connsRes : Except String (List RawConn)) :
    exceptErr (scanProcesses userRes procsRes connsRes)
      = (exceptErr userRes || exceptErr procsRes) ∧
    (∀ (us : String) (ps : List RawProc) (e : String),
      userRes = .ok us → procsRes = .ok ps → connsRes = .error e →
        scanProcesses userRes procsRes connsRes
          = .ok (ps.filterMap (buildRecord us (fun _ => []))) ∧
        ∀ r ∈ ps.filterMap (buildRecord us (fun _ => [])), r.connections = []) := by
  constructor
  · cases userRes with
    | error e => rfl
    | ok us =>
      cases procsRes with
      | error e => rfl
      | ok ps => rfl
  · intro us ps e hu hp hc
    subst hu hp hc
    refine ⟨rfl, ?_⟩
    intro r hr
    obtain ⟨q, _, hq⟩ := List.mem_filterMap.mp hr
    unfold buildRecord at hq
    cases hn : q.nameRes with
    | none => rw [hn] at hq; cases hq
    | some nm =>
      rw [hn] at hq
      simp only [Option.some.injEq] at hq
      subst hq
      rfl

/-- C6, witness: the amended theorem evaluated with a successful user lookup
and process enumeration but a failed connection enumeration. -/
theorem claim_C6_witness :
    scanProcesses (Except.ok "me") (Except.ok [rawW]) (Except.error "netlink down")
      = Except.ok ([rawW].filterMap (buildRecord "me" (fun _ => []))) ∧
    ∀ r ∈ [rawW].filterMap (buildRecord "me" (fun _ => [])), r.connections = [] :=
  (claim_C6_amended (Except.ok "me") (Except.ok [rawW])
    (Except.error "netlink down")).2 "me" [rawW] "netlink down" rfl rfl rfl

/-! ### Claim C7 -/

/-- C7: the search filter keeps a record iff its name contains the search
text case-insensitively or some connection's decimal port number contains
the search text as a substring (the code lowercases the search text before
the port comparison, which is inconsequential on digit strings); concretely,
`"redis-server"` with a connection on port 6379 matches `"379"` and
`"redis"` but not `"6380"`. -/
theorem claim_C7_search_matching :
    (∀ (p : ProcessInfo) (raw : String),
      searchMatches (lowerStr raw) p = true ↔
        (strContains (lowerStr p.name) (lowerStr raw) = true ∨
         ∃ c ∈ p.connections, strContains (natDecStr c.port) raw = true)) ∧
    (∀ (m : Model) (p : ProcessInfo), lowerStr m.searchValue ≠ "" →
      (keepProc m p = true ↔
        (tabKeep m p = true ∧ portsKeep m p = true ∧
         searchMatches (lowerStr m.searchValue) p = true))) ∧
    searchMatches (lowerStr "379") redisEx = true ∧
    searchMatches (lowerStr "redis") redisEx = true ∧
    searchMatches (lowerStr "6380") redisEx = false := by
  refine ⟨?_, ?_, by decide, by decide, by decide⟩
  · intro p raw
    unfold searchMatches
    simp only [Bool.or_eq_true, List.any_eq_true]
    refine or_congr Iff.rfl ?_
    constructor
    · intro ⟨c, hc, h⟩
      refine ⟨c, hc, ?_⟩
      rw [← strContains_port_lower c.port raw]
      exact h
    · intro ⟨c, hc, h⟩
      refine ⟨c, hc, ?_⟩
      rw [strContains_port_lower c.port raw]
      exact h
  · intro m p hne
    rw [keepProc_eq]
    simp only [Bool.and_eq_true]
    unfold searchKeep
    rw [if_pos hne]
    tauto

/-- C7, witness: the filter-stage equivalence evaluated on the concrete
`redis-server` record inside a session searching for `"379"`. -/
theorem claim_C7_witness :
    keepProc { initialModel with searchValue := "379" } redisEx = true ∧
    lowerStr "379" ≠ "" ∧
    searchMatches (lowerStr "379") redisEx = true := by
  have h := (claim_C7_search_matching).2.1 { initialModel with searchValue := "379" }
    redisEx (by decide)
  refine ⟨h.mpr ⟨by decide, by decide, ?_⟩, by decide, ?_⟩
  · exact (claim_C7_search_matching).2.2.1
  · exact (claim_C7_search_matching).2.2.1

/-! ### Claim C8 -/

/-- C8: the view derivation filters by active group, ports-only flag and
search in one pass over the snapshot, then sorts; with the default
parameters (ports-only on, `PortCount` descending) the two-process scenario
derives exactly pid 200, and with the filter off it derives both rows with
pid 200 first. -/
theorem claim_C8_view_derivation :
    (∀ m : Model, filteredProcs m =
      m.processes.filter fun p => tabKeep m p && portsKeep m p && searchKeep m p) ∧
    initialModel.filterPorts = true ∧ initialModel.sortBy = SortPorts ∧
    initialModel.sortDesc = true ∧ initialModel.activeTab = 0 ∧
    (sortedProcs m8).map ProcessInfo.pid = [200] ∧
    (updateTableRows m8).map (List.map Row.pidStr) = some ["200"] ∧
    (sortedProcs { m8 with filterPorts := false }).map ProcessInfo.pid = [200, 100] ∧
    (updateTableRows { m8 with filterPorts := false }).map (List.map Row.pidStr)
      = some ["200", "100"] := by
  exact ⟨filteredProcs_eq, rfl, rfl, rfl, rfl, by decide, by decide, by decide, by decide⟩

/-! ### Claim C10 -/

/-- C10 fails on the code: after a resize to terminal width 20 the ports
column width is 0, and formatting the row of a process whose joined ports
string is `"8080(L)"` (length 7 > 0) evaluates `portsStr[:0-3]`, an
out-of-range slice — the Go program panics (modelled as `none`) instead of
truncating within bounds. -/
theorem claim_C10_truncation_panic :
    stepMsg initialModel (Msg.windowSize 20 40) = some mResize ∧
    portsWidthOf mResize = 0 ∧
    portsCellStr p200ex = "8080(L)" ∧
    (portsCellStr p200ex).length > 0 ∧
    truncPorts (portsCellStr p200ex) (portsWidthOf mResize) = none ∧
    renderRow mResize p200ex = none ∧
    stepMsg mResize (Msg.scan [p200ex]) = none := by
  refine ⟨?_, ?_, ?_, ?_, ?_, ?_, ?_⟩ <;> decide

end PortMonitor
